import Mathlib

/-!
Verification development for the CS330 OpenGL scene application
(`Source/ViewManager.cpp`, `Source/SceneManager.cpp`).

The state held in the anonymous namespace of `ViewManager.cpp` (camera
pointer, mouse bookkeeping, orthographic-orbit parameters, keyboard layout
table) is embedded as an explicit state record over `ℚ`; the event handlers
(`ProcessKeyboardEvents`, the two mouse callbacks and the per-frame
`PrepareSceneView`) become state-transition functions.  The real-valued
spherical-to-Cartesian conversion of `update_o_camera_position` is embedded
over `ℝ`.  `SceneManager`'s material lookup and the mesh load/draw structure
are embedded directly.
-/

/-- Three-component vector over `ℚ`, standing in for `glm::vec3` (the float
components are modelled as exact rationals). -/
structure Vec3 where
  x : ℚ
  y : ℚ
  z : ℚ
deriving DecidableEq, Repr

/-- Componentwise addition of vectors, as `glm` defines `operator+`. -/
def Vec3.add (a b : Vec3) : Vec3 := ⟨a.x + b.x, a.y + b.y, a.z + b.z⟩

/-- Componentwise subtraction of vectors, as `glm` defines `operator-`. -/
def Vec3.sub (a b : Vec3) : Vec3 := ⟨a.x - b.x, a.y - b.y, a.z - b.z⟩

/-- Scalar multiple of a vector, as `glm` defines `operator*`. -/
def Vec3.smul (k : ℚ) (a : Vec3) : Vec3 := ⟨k * a.x, k * a.y, k * a.z⟩

/-! GLFW key codes used by `ViewManager.cpp` (values from `glfw3.h`). -/

def GLFW_KEY_SPACE : Int := 32
def GLFW_KEY_A : Int := 65
def GLFW_KEY_C : Int := 67
def GLFW_KEY_D : Int := 68
def GLFW_KEY_E : Int := 69
def GLFW_KEY_F : Int := 70
def GLFW_KEY_O : Int := 79
def GLFW_KEY_P : Int := 80
def GLFW_KEY_Q : Int := 81
def GLFW_KEY_R : Int := 82
def GLFW_KEY_S : Int := 83
def GLFW_KEY_T : Int := 84
def GLFW_KEY_W : Int := 87
def GLFW_KEY_ESCAPE : Int := 256

/-- Movement directions accepted by `Camera::ProcessKeyboard`
(`camera.h`'s `Camera_Movement` enum). -/
inductive Camera_Movement where
  | FORWARD
  | BACKWARD
  | LEFT
  | RIGHT
  | UP
  | DOWN
deriving DecidableEq, Repr

/-- Modelled from the spec: the `Camera` class is the course utility's
standard first-person camera (not under `src/`): "a perspective camera with
position, front/up vectors, yaw/pitch/zoom updated by mouse delta and
WASD-style input".  Its state is the position, the cached direction-frame
vectors, the Euler angles, the zoom (field of view in degrees) and the two
speed parameters. -/
structure Camera where
  Position : Vec3
  Front : Vec3
  Up : Vec3
  CamRight : Vec3
  Yaw : ℚ
  Pitch : ℚ
  Zoom : ℚ
  MovementSpeed : ℚ
  MouseSensitivity : ℚ
deriving DecidableEq, Repr

/-- Modelled from the spec: `Camera::ProcessKeyboard` (not under `src/`) of
the standard first-person camera moves the position along the cached
front/right/up vectors by `MovementSpeed * deltaTime`; no other field
changes. -/
def Camera.ProcessKeyboard (c : Camera) (direction : Camera_Movement)
    (deltaTime : ℚ) : Camera :=
  let velocity := c.MovementSpeed * deltaTime
  match direction with
  | .FORWARD => { c with Position := c.Position.add (Vec3.smul velocity c.Front) }
  | .BACKWARD => { c with Position := c.Position.sub (Vec3.smul velocity c.Front) }
  | .LEFT => { c with Position := c.Position.sub (Vec3.smul velocity c.CamRight) }
  | .RIGHT => { c with Position := c.Position.add (Vec3.smul velocity c.CamRight) }
  | .UP => { c with Position := c.Position.add (Vec3.smul velocity c.Up) }
  | .DOWN => { c with Position := c.Position.sub (Vec3.smul velocity c.Up) }

/-- Modelled from the spec: `Camera::ProcessMouseMovement` (not under
`src/`) of the standard first-person camera scales the offsets by
`MouseSensitivity`, adds them to yaw and pitch, and clamps pitch to
`[-89, 89]`.  The recomputation of the cached front/right/up vectors from
the new angles is real trigonometry of yaw and pitch (no claim depends on
the cached vectors after a mouse move, and the spec gives no formula), so
the rational model records only the angle update; position, zoom and the
speed parameters are untouched. -/
def Camera.ProcessMouseMovement (c : Camera) (xoffset yoffset : ℚ) : Camera :=
  let yaw := c.Yaw + xoffset * c.MouseSensitivity
  let pitch0 := c.Pitch + yoffset * c.MouseSensitivity
  let pitch1 := if pitch0 > 89 then (89 : ℚ) else pitch0
  let pitch2 := if pitch1 < -89 then (-89 : ℚ) else pitch1
  { c with Yaw := yaw, Pitch := pitch2 }

/-- The mutable state of `ViewManager.cpp`'s anonymous namespace together
with the camera object `g_pCamera` points to and the window-close flag set
by the escape key.  `o_camera_position` is recomputed by
`update_o_camera_position` from `(o_yaw, o_pitch, o_radius)` before its only
read (`PrepareSceneView`, lines 377-378), so the model keeps the spherical
coordinates and treats the Cartesian position as the derived real-valued
function `o_position` below; the cached vector written at initialization and
by the O-key reset (line 298) is never read before being overwritten. -/
structure VMState where
  cam : Camera
  gLastX : ℚ
  gLastY : ℚ
  gFirstMouse : Bool
  m_scalar : ℚ
  p_scalar : ℚ
  gDeltaTime : ℚ
  gLastFrame : ℚ
  bOrthographicProjection : Bool
  o_radius : ℚ
  o_yaw : ℚ
  o_pitch : ℚ
  o_scalar : ℚ
  bcolemak_layout : Bool
  gkey_forward : Int
  gkey_backward : Int
  gkey_left : Int
  gkey_right : Int
  gkey_up : Int
  gkey_down : Int
  gkey_layout : Int
  windowShouldClose : Bool
deriving DecidableEq, Repr

/-- The angle wrap applied after every orbit-angle update
(`ViewManager.cpp` lines 225-228 and the three analogous blocks): first a
value above `360.0` is reset to `0.0`, then a value below `0.0` is reset to
`359.9`. -/
def wrapAngle (v : ℚ) : ℚ :=
  let v1 := if v > 360 then (0 : ℚ) else v
  if v1 < 0 then (359.9 : ℚ) else v1

/-- Escape-key handler (`ProcessKeyboardEvents` lines 211-214): request
window close. -/
def kbEscape (pressed : List Int) (s : VMState) : VMState :=
  if GLFW_KEY_ESCAPE ∈ pressed then { s with windowShouldClose := true } else s

/-- Forward-key handler (lines 217-230): move the perspective camera
forward; in orthographic mode additionally raise `o_pitch` by
`delta_scaled * o_scalar` and wrap. -/
def kbForward (pressed : List Int) (ds : ℚ) (s : VMState) : VMState :=
  if s.gkey_forward ∈ pressed then
    let s1 := { s with cam := s.cam.ProcessKeyboard .FORWARD ds }
    if s1.bOrthographicProjection then
      { s1 with o_pitch := wrapAngle (s1.o_pitch + ds * s1.o_scalar) }
    else s1
  else s

/-- Backward-key handler (lines 231-244): mirror image of the forward
handler, lowering `o_pitch`. -/
def kbBackward (pressed : List Int) (ds : ℚ) (s : VMState) : VMState :=
  if s.gkey_backward ∈ pressed then
    let s1 := { s with cam := s.cam.ProcessKeyboard .BACKWARD ds }
    if s1.bOrthographicProjection then
      { s1 with o_pitch := wrapAngle (s1.o_pitch - ds * s1.o_scalar) }
    else s1
  else s

/-- Left-key handler (lines 247-260): pan the perspective camera left; in
orthographic mode lower `o_yaw` and wrap. -/
def kbLeft (pressed : List Int) (ds : ℚ) (s : VMState) : VMState :=
  if s.gkey_left ∈ pressed then
    let s1 := { s with cam := s.cam.ProcessKeyboard .LEFT ds }
    if s1.bOrthographicProjection then
      { s1 with o_yaw := wrapAngle (s1.o_yaw - ds * s1.o_scalar) }
    else s1
  else s

/-- Right-key handler (lines 261-273): in orthographic mode raise `o_yaw`
and wrap (the source performs the orbit update before the perspective
move), then pan the perspective camera right. -/
def kbRight (pressed : List Int) (ds : ℚ) (s : VMState) : VMState :=
  if s.gkey_right ∈ pressed then
    let s1 :=
      if s.bOrthographicProjection then
        { s with o_yaw := wrapAngle (s.o_yaw + ds * s.o_scalar) }
      else s
    { s1 with cam := s1.cam.ProcessKeyboard .RIGHT ds }
  else s

/-- Up-key handler (lines 276-279). -/
def kbUp (pressed : List Int) (ds : ℚ) (s : VMState) : VMState :=
  if s.gkey_up ∈ pressed then { s with cam := s.cam.ProcessKeyboard .UP ds } else s

/-- Down-key handler (lines 280-283). -/
def kbDown (pressed : List Int) (ds : ℚ) (s : VMState) : VMState :=
  if s.gkey_down ∈ pressed then { s with cam := s.cam.ProcessKeyboard .DOWN ds } else s

/-- P-key handler (lines 286-294): return the perspective camera to its
original pose and leave orthographic mode. -/
def kbPerspective (pressed : List Int) (s : VMState) : VMState :=
  if GLFW_KEY_P ∈ pressed then
    { s with
      cam := { s.cam with
        Position := ⟨0, 5, 12⟩
        Front := ⟨0, -0.5, -2⟩
        Up := ⟨0, 1, 0⟩ }
      bOrthographicProjection := false }
  else s

/-- O-key handler (lines 295-303): reset the orbit camera to its default
angles and enter orthographic mode (the cached `o_camera_position` is also
reset to `(0, 5, 12)` in the source; see `VMState`). -/
def kbOrthographic (pressed : List Int) (s : VMState) : VMState :=
  if GLFW_KEY_O ∈ pressed then
    { s with o_yaw := 0, o_pitch := 0, bOrthographicProjection := true }
  else s

/-- The layout swap of the layout-key handler (lines 308-329): when
`bcolemak_layout` is set install the QWERTY table and clear the flag,
otherwise install the Colemak table and set the flag; nothing else
changes. -/
def layoutToggle (s : VMState) : VMState :=
  if s.bcolemak_layout then
    { s with
      gkey_forward := GLFW_KEY_W, gkey_backward := GLFW_KEY_S
      gkey_left := GLFW_KEY_A, gkey_right := GLFW_KEY_D
      gkey_up := GLFW_KEY_Q, gkey_down := GLFW_KEY_E
      gkey_layout := GLFW_KEY_C, bcolemak_layout := false }
  else
    { s with
      gkey_forward := GLFW_KEY_F, gkey_backward := GLFW_KEY_S
      gkey_left := GLFW_KEY_R, gkey_right := GLFW_KEY_T
      gkey_up := GLFW_KEY_SPACE, gkey_down := GLFW_KEY_A
      gkey_layout := GLFW_KEY_Q, bcolemak_layout := true }

/-- Layout-key handler (lines 306-331): swap between the QWERTY and the
Colemak key tables and flip `bcolemak_layout`. -/
def kbLayout (pressed : List Int) (s : VMState) : VMState :=
  if s.gkey_layout ∈ pressed then layoutToggle s else s

/-- The seven key-code variables of `ViewManager.cpp` lines 63-69, viewed
as one table. -/
structure KeyTable where
  forward : Int
  backward : Int
  left : Int
  right : Int
  up : Int
  down : Int
  layout : Int
deriving DecidableEq, Repr

/-- The key table currently installed in a state. -/
def VMState.keyTable (s : VMState) : KeyTable :=
  ⟨s.gkey_forward, s.gkey_backward, s.gkey_left, s.gkey_right,
   s.gkey_up, s.gkey_down, s.gkey_layout⟩

/-- The QWERTY key table (lines 63-69 and 309-315). -/
def qwertyTable : KeyTable :=
  ⟨GLFW_KEY_W, GLFW_KEY_S, GLFW_KEY_A, GLFW_KEY_D, GLFW_KEY_Q, GLFW_KEY_E,
   GLFW_KEY_C⟩

/-- The Colemak key table (lines 320-326). -/
def colemakTable : KeyTable :=
  ⟨GLFW_KEY_F, GLFW_KEY_S, GLFW_KEY_R, GLFW_KEY_T, GLFW_KEY_SPACE, GLFW_KEY_A,
   GLFW_KEY_Q⟩

/-- `ViewManager::ProcessKeyboardEvents` (lines 207-332): compute
`delta_scaled = gDeltaTime * p_scalar` once, then run the key handlers in
source order on the set of currently pressed keys. -/
def ProcessKeyboardEvents (s : VMState) (pressed : List Int) : VMState :=
  let ds := s.gDeltaTime * s.p_scalar
  kbLayout pressed
    (kbOrthographic pressed
      (kbPerspective pressed
        (kbDown pressed ds
          (kbUp pressed ds
            (kbRight pressed ds
              (kbLeft pressed ds
                (kbBackward pressed ds
                  (kbForward pressed ds
                    (kbEscape pressed s)))))))))

/-- `ViewManager::Mouse_Position_Callback` (lines 154-177): on the first
event record the position; otherwise scale the offsets by `m_scalar`,
update the last-position bookkeeping and forward the offsets to
`Camera::ProcessMouseMovement`. -/
def Mouse_Position_Callback (s : VMState) (xMousePos yMousePos : ℚ) : VMState :=
  let s0 :=
    if s.gFirstMouse then
      { s with gLastX := xMousePos, gLastY := yMousePos, gFirstMouse := false }
    else s
  let xOffset := (xMousePos - s0.gLastX) * s0.m_scalar
  let yOffset := (s0.gLastY - yMousePos) * s0.m_scalar
  { s0 with
    gLastX := xMousePos
    gLastY := yMousePos
    cam := s0.cam.ProcessMouseMovement xOffset yOffset }

/-- `ViewManager::Mouse_Scroll_Wheel_Callback` (lines 179-199): vertical
scroll adjusts the mouse-movement speed `m_scalar`, horizontal scroll the
panning speed `p_scalar`, each clamped to `[0.01, 10.0]`. -/
def Mouse_Scroll_Wheel_Callback (s : VMState) (xOffset yOffset : ℚ) : VMState :=
  let m0 := s.m_scalar + yOffset
  let m1 := if m0 < 0.01 then (0.01 : ℚ) else m0
  let m2 := if m1 > 10 then (10 : ℚ) else m1
  let p0 := s.p_scalar + xOffset
  let p1 := if p0 < 0.01 then (0.01 : ℚ) else p0
  let p2 := if p1 > 10 then (10 : ℚ) else p1
  { s with m_scalar := m2, p_scalar := p2 }

/-- Per-frame state update of `ViewManager::PrepareSceneView`
(lines 360-366): refresh the frame timing from the current time, then
process the pending keyboard events.  The view/projection computation of
the same method is modelled separately by `PrepareSceneViewMatrices`. -/
def PrepareSceneViewStep (s : VMState) (currentFrame : ℚ) (pressed : List Int) :
    VMState :=
  ProcessKeyboardEvents
    { s with gDeltaTime := currentFrame - s.gLastFrame, gLastFrame := currentFrame }
    pressed

/-- The external inputs the application reacts to: a rendered frame (with
its GLFW timestamp and the keys held down), a mouse-move event and a
scroll-wheel event. -/
inductive Event where
  | frame (t : ℚ) (pressed : List Int)
  | mouseMove (x y : ℚ)
  | scroll (x y : ℚ)
deriving DecidableEq, Repr

/-- One step of the event-driven system. -/
def stepEvent (s : VMState) : Event → VMState
  | .frame t pressed => PrepareSceneViewStep s t pressed
  | .mouseMove x y => Mouse_Position_Callback s x y
  | .scroll x y => Mouse_Scroll_Wheel_Callback s x y

/-- Run a sequence of events from a state. -/
def runEvents (s : VMState) (evs : List Event) : VMState :=
  evs.foldl stepEvent s

/-- The camera built by the `ViewManager` constructor (lines 83-89);
the fields the constructor does not assign keep the utility camera's
defaults (yaw `-90`, pitch `0`, sensitivity `0.1`, right `(1,0,0)` for the
default orientation), none of which any claim depends on. -/
def initialCamera : Camera where
  Position := ⟨0, 5, 12⟩
  Front := ⟨0, -0.5, -2⟩
  Up := ⟨0, 1, 0⟩
  CamRight := ⟨1, 0, 0⟩
  Yaw := -90
  Pitch := 0
  Zoom := 80
  MovementSpeed := 20
  MouseSensitivity := 0.1

/-- The initial program state: the global initializers of
`ViewManager.cpp` lines 32-69 together with the constructed camera. -/
def initialState : VMState where
  cam := initialCamera
  gLastX := 500
  gLastY := 400
  gFirstMouse := true
  m_scalar := 1
  p_scalar := 1
  gDeltaTime := 0
  gLastFrame := 0
  bOrthographicProjection := false
  o_radius := 10
  o_yaw := 0
  o_pitch := 0
  o_scalar := 5
  bcolemak_layout := false
  gkey_forward := GLFW_KEY_W
  gkey_backward := GLFW_KEY_S
  gkey_left := GLFW_KEY_A
  gkey_right := GLFW_KEY_D
  gkey_up := GLFW_KEY_Q
  gkey_down := GLFW_KEY_E
  gkey_layout := GLFW_KEY_C
  windowShouldClose := false

/-! The real-valued geometry: `update_o_camera_position` and the view and
projection constructions of `PrepareSceneView`. -/

/-- Three-component vector over `ℝ`. -/
structure Vec3R where
  x : ℝ
  y : ℝ
  z : ℝ

/-- Cast the rational model vector to its real counterpart. -/
noncomputable def Vec3.toR (v : Vec3) : Vec3R := ⟨(v.x : ℝ), (v.y : ℝ), (v.z : ℝ)⟩

/-- `glm::radians`: degrees to radians. -/
noncomputable def radiansR (deg : ℝ) : ℝ := deg * Real.pi / 180

/-- `update_o_camera_position` (`ViewManager.cpp` lines 340-345): the
spherical-to-Cartesian conversion placing the orbit camera from
`(o_yaw, o_pitch, o_radius)`. -/
noncomputable def o_position (yaw pitch radius : ℝ) : Vec3R :=
  ⟨Real.cos (radiansR yaw) * Real.cos (radiansR pitch) * radius,
   Real.sin (radiansR pitch) * radius,
   Real.sin (radiansR yaw) * Real.cos (radiansR pitch) * radius⟩

/-- Euclidean norm of a real vector. -/
noncomputable def Vec3R.norm (v : Vec3R) : ℝ :=
  Real.sqrt (v.x ^ 2 + v.y ^ 2 + v.z ^ 2)

/-- A view matrix as the `ViewManager` constructs one: `glm::lookAt` of an
eye point, a target point and an up vector (`Camera::GetViewMatrix` of the
standard first-person camera is `lookAt(Position, Position + Front, Up)`,
modelled from the spec since `camera.h` is not under `src/`). -/
inductive ViewMatrix where
  | lookAt (eye center up : Vec3R)

/-- Modelled from the spec: `Camera::GetViewMatrix` (not under `src/`)
returns `glm::lookAt(Position, Position + Front, Up)`. -/
noncomputable def Camera.GetViewMatrix (c : Camera) : ViewMatrix :=
  .lookAt c.Position.toR (c.Position.add c.Front).toR c.Up.toR

/-- A projection matrix as the `ViewManager` constructs one: either
`glm::ortho` of six frustum bounds or `glm::perspective` of a field of view
in radians, an aspect ratio and the near/far planes. -/
inductive ProjectionMatrix where
  | ortho (left right bottom top zNear zFar : ℝ)
  | perspective (fovy aspect zNear zFar : ℝ)

/-- Window width constant of `ViewManager.cpp` (line 22). -/
def WINDOW_WIDTH : ℚ := 1000

/-- Window height constant of `ViewManager.cpp` (line 23). -/
def WINDOW_HEIGHT : ℚ := 800

/-- View/projection computation of `ViewManager::PrepareSceneView`
(lines 356-382): the view is first taken from the perspective camera; when
`bOrthographicProjection` is set, the orbit position is recomputed and the
view is replaced by a `lookAt` toward the world origin with the fixed
orthographic frustum scaled by `ortho_scale = 0.02`; otherwise the
perspective projection from the camera zoom is used. -/
noncomputable def PrepareSceneViewMatrices (s : VMState) :
    ViewMatrix × ProjectionMatrix :=
  let view := s.cam.GetViewMatrix
  let ortho_scale : ℝ := 0.02
  if s.bOrthographicProjection = true then
    let eye := o_position (s.o_yaw : ℝ) (s.o_pitch : ℝ) (s.o_radius : ℝ)
    (ViewMatrix.lookAt eye ⟨0, 0, 0⟩ ⟨0, 1, 0⟩,
     ProjectionMatrix.ortho ((WINDOW_WIDTH : ℝ) * (-1) * ortho_scale)
       ((WINDOW_WIDTH : ℝ) * ortho_scale)
       ((WINDOW_HEIGHT : ℝ) * (-1) * ortho_scale)
       ((WINDOW_HEIGHT : ℝ) * ortho_scale) 0.1 100)
  else
    (view,
     ProjectionMatrix.perspective (radiansR (s.cam.Zoom : ℝ))
       ((WINDOW_WIDTH : ℝ) / (WINDOW_HEIGHT : ℝ)) 0.1 100)

/-! `SceneManager.cpp`: the material list and the mesh load/draw structure. -/

/-- `OBJECT_MATERIAL` (`SceneManager.h`): a named bundle of reflective
properties looked up by its `tag`. -/
structure OBJECT_MATERIAL where
  ambientColor : Vec3
  ambientStrength : ℚ
  diffuseColor : Vec3
  specularColor : Vec3
  shininess : ℚ
  tag : String
deriving DecidableEq, Repr

/-- The field copy performed inside `SceneManager::FindMaterial`'s loop
(lines 247-251) when an entry matches: the five reflective fields are
copied into the output parameter; its `tag` is not touched. -/
def copyMaterialFields (src dst : OBJECT_MATERIAL) : OBJECT_MATERIAL :=
  { dst with
    ambientColor := src.ambientColor
    ambientStrength := src.ambientStrength
    diffuseColor := src.diffuseColor
    specularColor := src.specularColor
    shininess := src.shininess }

/-- The scanning loop of `SceneManager::FindMaterial` (lines 240-257): walk
the list in order until the first entry whose `tag` equals the search tag,
copy its fields into the output parameter, and leave the parameter alone
when no entry matches. -/
def findMaterialLoop (mats : List OBJECT_MATERIAL) (tag : String)
    (material : OBJECT_MATERIAL) : OBJECT_MATERIAL :=
  match mats with
  | [] => material
  | m :: rest =>
    if m.tag = tag then copyMaterialFields m material
    else findMaterialLoop rest tag material

/-- `SceneManager::FindMaterial` (lines 233-260): return `false` when the
material list is empty; otherwise run the scanning loop and return `true`
regardless of whether any entry matched.  The pair is the returned flag and
the final value of the by-reference `material` parameter. -/
def FindMaterial (mats : List OBJECT_MATERIAL) (tag : String)
    (material : OBJECT_MATERIAL) : Bool × OBJECT_MATERIAL :=
  if mats.length = 0 then (false, material)
  else (true, findMaterialLoop mats tag material)

/-- The five primitive mesh types of the external `ShapeMeshes` utility
that this scene uses. -/
inductive Mesh where
  | plane
  | box
  | sphere
  | cylinder
  | prism
deriving DecidableEq, Repr

/-- The meshes loaded by `SceneManager::PrepareScene` (lines 614-618), in
source order. -/
def preparedMeshes : List Mesh := [.plane, .box, .sphere, .cylinder, .prism]

/-- Draw calls of `SceneManager::drawDesk` (line 684). -/
def drawDesk : List Mesh := [.plane]

/-- Draw calls of `SceneManager::drawWalls` (lines 1327, 1355). -/
def drawWalls : List Mesh := [.plane, .plane]

/-- Draw calls of `SceneManager::drawKeyboard` (lines 736-1287): seven
boxes for the keyboard body and twenty keycap boxes. -/
def drawKeyboard : List Mesh := List.replicate 27 .box

/-- Draw calls of `SceneManager::drawTrackball` (lines 1925-2028). -/
def drawTrackball : List Mesh := [.sphere, .cylinder, .cylinder, .sphere, .cylinder]

/-- Draw calls of `SceneManager::drawPrimaryMonitor`
(lines 1396-1510). -/
def drawPrimaryMonitor : List Mesh := [.plane, .plane, .prism, .prism, .prism]

/-- Draw calls of `SceneManager::drawSecondaryMonitor`
(lines 1552-1666). -/
def drawSecondaryMonitor : List Mesh := [.box, .box, .cylinder, .box, .box]

/-- Draw calls of `SceneManager::drawTower` (lines 1739-1880). -/
def drawTower : List Mesh :=
  [.plane, .plane, .plane, .plane, .plane, .cylinder, .plane]

/-- `SceneManager::RenderScene` (lines 627-639): the helper draw functions
in call order, concatenating their draw calls. -/
def renderSceneDraws : List Mesh :=
  drawDesk ++ drawWalls ++ drawKeyboard ++ drawTrackball ++
    drawPrimaryMonitor ++ drawSecondaryMonitor ++ drawTower

/-! Small facts about the embedded operations, used to settle the claims. -/

theorem wrapAngle_nonneg (v : ℚ) : 0 ≤ wrapAngle v := by
  simp only [wrapAngle]
  split_ifs <;> linarith

theorem wrapAngle_le (v : ℚ) : wrapAngle v ≤ 360 := by
  simp only [wrapAngle]
  split_ifs <;> linarith

theorem ProcessKeyboard_Zoom (c : Camera) (d : Camera_Movement) (dt : ℚ) :
    (c.ProcessKeyboard d dt).Zoom = c.Zoom := by
  cases d <;> rfl

theorem ProcessMouseMovement_Zoom (c : Camera) (x y : ℚ) :
    (c.ProcessMouseMovement x y).Zoom = c.Zoom := by
  simp only [Camera.ProcessMouseMovement]

theorem kbEscape_cam (p : List Int) (s : VMState) : (kbEscape p s).cam = s.cam := by
  simp only [kbEscape]; split_ifs <;> rfl

theorem kbEscape_o_yaw (p : List Int) (s : VMState) : (kbEscape p s).o_yaw = s.o_yaw := by
  simp only [kbEscape]; split_ifs <;> rfl

theorem kbEscape_o_pitch (p : List Int) (s : VMState) : (kbEscape p s).o_pitch = s.o_pitch := by
  simp only [kbEscape]; split_ifs <;> rfl

theorem kbEscape_o_radius (p : List Int) (s : VMState) : (kbEscape p s).o_radius = s.o_radius := by
  simp only [kbEscape]; split_ifs <;> rfl

theorem kbEscape_o_scalar (p : List Int) (s : VMState) : (kbEscape p s).o_scalar = s.o_scalar := by
  simp only [kbEscape]; split_ifs <;> rfl

theorem kbEscape_ortho (p : List Int) (s : VMState) :
    (kbEscape p s).bOrthographicProjection = s.bOrthographicProjection := by
  simp only [kbEscape]; split_ifs <;> rfl

theorem kbEscape_colemak (p : List Int) (s : VMState) :
    (kbEscape p s).bcolemak_layout = s.bcolemak_layout := by
  simp only [kbEscape]; split_ifs <;> rfl

theorem kbEscape_keyTable (p : List Int) (s : VMState) :
    (kbEscape p s).keyTable = s.keyTable := by
  simp only [kbEscape]; split_ifs <;> rfl

theorem kbForward_o_yaw (p : List Int) (ds : ℚ) (s : VMState) :
    (kbForward p ds s).o_yaw = s.o_yaw := by
  simp only [kbForward]; split_ifs <;> rfl

theorem kbForward_o_radius (p : List Int) (ds : ℚ) (s : VMState) :
    (kbForward p ds s).o_radius = s.o_radius := by
  simp only [kbForward]; split_ifs <;> rfl

theorem kbForward_o_scalar (p : List Int) (ds : ℚ) (s : VMState) :
    (kbForward p ds s).o_scalar = s.o_scalar := by
  simp only [kbForward]; split_ifs <;> rfl

theorem kbForward_ortho (p : List Int) (ds : ℚ) (s : VMState) :
    (kbForward p ds s).bOrthographicProjection = s.bOrthographicProjection := by
  simp only [kbForward]; split_ifs <;> rfl

theorem kbForward_colemak (p : List Int) (ds : ℚ) (s : VMState) :
    (kbForward p ds s).bcolemak_layout = s.bcolemak_layout := by
  simp only [kbForward]; split_ifs <;> rfl

theorem kbForward_keyTable (p : List Int) (ds : ℚ) (s : VMState) :
    (kbForward p ds s).keyTable = s.keyTable := by
  simp only [kbForward]; split_ifs <;> rfl

theorem kbForward_Zoom (p : List Int) (ds : ℚ) (s : VMState) :
    (kbForward p ds s).cam.Zoom = s.cam.Zoom := by
  simp only [kbForward]; split_ifs <;> rfl

theorem kbBackward_o_yaw (p : List Int) (ds : ℚ) (s : VMState) :
    (kbBackward p ds s).o_yaw = s.o_yaw := by
  simp only [kbBackward]; split_ifs <;> rfl

theorem kbBackward_o_radius (p : List Int) (ds : ℚ) (s : VMState) :
    (kbBackward p ds s).o_radius = s.o_radius := by
  simp only [kbBackward]; split_ifs <;> rfl

theorem kbBackward_o_scalar (p : List Int) (ds : ℚ) (s : VMState) :
    (kbBackward p ds s).o_scalar = s.o_scalar := by
  simp only [kbBackward]; split_ifs <;> rfl

theorem kbBackward_ortho (p : List Int) (ds : ℚ) (s : VMState) :
    (kbBackward p ds s).bOrthographicProjection = s.bOrthographicProjection := by
  simp only [kbBackward]; split_ifs <;> rfl

theorem kbBackward_colemak (p : List Int) (ds : ℚ) (s : VMState) :
    (kbBackward p ds s).bcolemak_layout = s.bcolemak_layout := by
  simp only [kbBackward]; split_ifs <;> rfl

theorem kbBackward_keyTable (p : List Int) (ds : ℚ) (s : VMState) :
    (kbBackward p ds s).keyTable = s.keyTable := by
  simp only [kbBackward]; split_ifs <;> rfl

theorem kbBackward_Zoom (p : List Int) (ds : ℚ) (s : VMState) :
    (kbBackward p ds s).cam.Zoom = s.cam.Zoom := by
  simp only [kbBackward]; split_ifs <;> rfl

theorem kbLeft_o_pitch (p : List Int) (ds : ℚ) (s : VMState) :
    (kbLeft p ds s).o_pitch = s.o_pitch := by
  simp only [kbLeft]; split_ifs <;> rfl

theorem kbLeft_o_radius (p : List Int) (ds : ℚ) (s : VMState) :
    (kbLeft p ds s).o_radius = s.o_radius := by
  simp only [kbLeft]; split_ifs <;> rfl

theorem kbLeft_o_scalar (p : List Int) (ds : ℚ) (s : VMState) :
    (kbLeft p ds s).o_scalar = s.o_scalar := by
  simp only [kbLeft]; split_ifs <;> rfl

theorem kbLeft_ortho (p : List Int) (ds : ℚ) (s : VMState) :
    (kbLeft p ds s).bOrthographicProjection = s.bOrthographicProjection := by
  simp only [kbLeft]; split_ifs <;> rfl

theorem kbLeft_colemak (p : List Int) (ds : ℚ) (s : VMState) :
    (kbLeft p ds s).bcolemak_layout = s.bcolemak_layout := by
  simp only [kbLeft]; split_ifs <;> rfl

theorem kbLeft_keyTable (p : List Int) (ds : ℚ) (s : VMState) :
    (kbLeft p ds s).keyTable = s.keyTable := by
  simp only [kbLeft]; split_ifs <;> rfl

theorem kbLeft_Zoom (p : List Int) (ds : ℚ) (s : VMState) :
    (kbLeft p ds s).cam.Zoom = s.cam.Zoom := by
  simp only [kbLeft]; split_ifs <;> rfl

theorem kbRight_o_pitch (p : List Int) (ds : ℚ) (s : VMState) :
    (kbRight p ds s).o_pitch = s.o_pitch := by
  simp only [kbRight]; split_ifs <;> rfl

theorem kbRight_o_radius (p : List Int) (ds : ℚ) (s : VMState) :
    (kbRight p ds s).o_radius = s.o_radius := by
  simp only [kbRight]; split_ifs <;> rfl

theorem kbRight_o_scalar (p : List Int) (ds : ℚ) (s : VMState) :
    (kbRight p ds s).o_scalar = s.o_scalar := by
  simp only [kbRight]; split_ifs <;> rfl

theorem kbRight_ortho (p : List Int) (ds : ℚ) (s : VMState) :
    (kbRight p ds s).bOrthographicProjection = s.bOrthographicProjection := by
  simp only [kbRight]; split_ifs <;> rfl

theorem kbRight_colemak (p : List Int) (ds : ℚ) (s : VMState) :
    (kbRight p ds s).bcolemak_layout = s.bcolemak_layout := by
  simp only [kbRight]; split_ifs <;> rfl

theorem kbRight_keyTable (p : List Int) (ds : ℚ) (s : VMState) :
    (kbRight p ds s).keyTable = s.keyTable := by
  simp only [kbRight]; split_ifs <;> rfl

theorem kbRight_Zoom (p : List Int) (ds : ℚ) (s : VMState) :
    (kbRight p ds s).cam.Zoom = s.cam.Zoom := by
  simp only [kbRight]; split_ifs <;> rfl

theorem kbUp_angles (p : List Int) (ds : ℚ) (s : VMState) :
    (kbUp p ds s).o_yaw = s.o_yaw ∧ (kbUp p ds s).o_pitch = s.o_pitch := by
  simp only [kbUp]; split_ifs <;> exact ⟨rfl, rfl⟩

theorem kbUp_o_radius (p : List Int) (ds : ℚ) (s : VMState) :
    (kbUp p ds s).o_radius = s.o_radius := by
  simp only [kbUp]; split_ifs <;> rfl

theorem kbUp_o_scalar (p : List Int) (ds : ℚ) (s : VMState) :
    (kbUp p ds s).o_scalar = s.o_scalar := by
  simp only [kbUp]; split_ifs <;> rfl

theorem kbUp_ortho (p : List Int) (ds : ℚ) (s : VMState) :
    (kbUp p ds s).bOrthographicProjection = s.bOrthographicProjection := by
  simp only [kbUp]; split_ifs <;> rfl

theorem kbUp_colemak (p : List Int) (ds : ℚ) (s : VMState) :
    (kbUp p ds s).bcolemak_layout = s.bcolemak_layout := by
  simp only [kbUp]; split_ifs <;> rfl

theorem kbUp_keyTable (p : List Int) (ds : ℚ) (s : VMState) :
    (kbUp p ds s).keyTable = s.keyTable := by
  simp only [kbUp]; split_ifs <;> rfl

theorem kbUp_Zoom (p : List Int) (ds : ℚ) (s : VMState) :
    (kbUp p ds s).cam.Zoom = s.cam.Zoom := by
  simp only [kbUp]; split_ifs <;> rfl

theorem kbDown_angles (p : List Int) (ds : ℚ) (s : VMState) :
    (kbDown p ds s).o_yaw = s.o_yaw ∧ (kbDown p ds s).o_pitch = s.o_pitch := by
  simp only [kbDown]; split_ifs <;> exact ⟨rfl, rfl⟩

theorem kbDown_o_radius (p : List Int) (ds : ℚ) (s : VMState) :
    (kbDown p ds s).o_radius = s.o_radius := by
  simp only [kbDown]; split_ifs <;> rfl

theorem kbDown_o_scalar (p : List Int) (ds : ℚ) (s : VMState) :
    (kbDown p ds s).o_scalar = s.o_scalar := by
  simp only [kbDown]; split_ifs <;> rfl

theorem kbDown_ortho (p : List Int) (ds : ℚ) (s : VMState) :
    (kbDown p ds s).bOrthographicProjection = s.bOrthographicProjection := by
  simp only [kbDown]; split_ifs <;> rfl

theorem kbDown_colemak (p : List Int) (ds : ℚ) (s : VMState) :
    (kbDown p ds s).bcolemak_layout = s.bcolemak_layout := by
  simp only [kbDown]; split_ifs <;> rfl

theorem kbDown_keyTable (p : List Int) (ds : ℚ) (s : VMState) :
    (kbDown p ds s).keyTable = s.keyTable := by
  simp only [kbDown]; split_ifs <;> rfl

theorem kbDown_Zoom (p : List Int) (ds : ℚ) (s : VMState) :
    (kbDown p ds s).cam.Zoom = s.cam.Zoom := by
  simp only [kbDown]; split_ifs <;> rfl

theorem kbPerspective_o_yaw (p : List Int) (s : VMState) :
    (kbPerspective p s).o_yaw = s.o_yaw := by
  simp only [kbPerspective]; split_ifs <;> rfl

theorem kbPerspective_o_pitch (p : List Int) (s : VMState) :
    (kbPerspective p s).o_pitch = s.o_pitch := by
  simp only [kbPerspective]; split_ifs <;> rfl

theorem kbPerspective_o_radius (p : List Int) (s : VMState) :
    (kbPerspective p s).o_radius = s.o_radius := by
  simp only [kbPerspective]; split_ifs <;> rfl

theorem kbPerspective_o_scalar (p : List Int) (s : VMState) :
    (kbPerspective p s).o_scalar = s.o_scalar := by
  simp only [kbPerspective]; split_ifs <;> rfl

theorem kbPerspective_colemak (p : List Int) (s : VMState) :
    (kbPerspective p s).bcolemak_layout = s.bcolemak_layout := by
  simp only [kbPerspective]; split_ifs <;> rfl

theorem kbPerspective_keyTable (p : List Int) (s : VMState) :
    (kbPerspective p s).keyTable = s.keyTable := by
  simp only [kbPerspective]; split_ifs <;> rfl

theorem kbPerspective_Zoom (p : List Int) (s : VMState) :
    (kbPerspective p s).cam.Zoom = s.cam.Zoom := by
  simp only [kbPerspective]; split_ifs <;> rfl

theorem kbPerspective_of_mem (p : List Int) (s : VMState) (h : GLFW_KEY_P ∈ p) :
    (kbPerspective p s).cam.Position = ⟨0, 5, 12⟩ ∧
    (kbPerspective p s).cam.Front = ⟨0, -0.5, -2⟩ ∧
    (kbPerspective p s).cam.Up = ⟨0, 1, 0⟩ ∧
    (kbPerspective p s).bOrthographicProjection = false := by
  simp only [kbPerspective, if_pos h]
  simp

theorem kbPerspective_ortho_of_not (p : List Int) (s : VMState)
    (h : GLFW_KEY_P ∉ p) :
    (kbPerspective p s).bOrthographicProjection = s.bOrthographicProjection := by
  simp only [kbPerspective, if_neg h]

theorem kbOrthographic_cam (p : List Int) (s : VMState) :
    (kbOrthographic p s).cam = s.cam := by
  simp only [kbOrthographic]; split_ifs <;> rfl

theorem kbOrthographic_o_radius (p : List Int) (s : VMState) :
    (kbOrthographic p s).o_radius = s.o_radius := by
  simp only [kbOrthographic]; split_ifs <;> rfl

theorem kbOrthographic_o_scalar (p : List Int) (s : VMState) :
    (kbOrthographic p s).o_scalar = s.o_scalar := by
  simp only [kbOrthographic]; split_ifs <;> rfl

theorem kbOrthographic_colemak (p : List Int) (s : VMState) :
    (kbOrthographic p s).bcolemak_layout = s.bcolemak_layout := by
  simp only [kbOrthographic]; split_ifs <;> rfl

theorem kbOrthographic_keyTable (p : List Int) (s : VMState) :
    (kbOrthographic p s).keyTable = s.keyTable := by
  simp only [kbOrthographic]; split_ifs <;> rfl

theorem kbOrthographic_of_mem (p : List Int) (s : VMState) (h : GLFW_KEY_O ∈ p) :
    (kbOrthographic p s).o_yaw = 0 ∧ (kbOrthographic p s).o_pitch = 0 ∧
    (kbOrthographic p s).bOrthographicProjection = true := by
  simp only [kbOrthographic, if_pos h]
  simp

theorem kbOrthographic_of_not (p : List Int) (s : VMState) (h : GLFW_KEY_O ∉ p) :
    kbOrthographic p s = s := by
  simp only [kbOrthographic, if_neg h]

theorem kbLayout_cam (p : List Int) (s : VMState) :
    (kbLayout p s).cam = s.cam := by
  simp only [kbLayout, layoutToggle]; split_ifs <;> rfl

theorem kbLayout_o_yaw (p : List Int) (s : VMState) :
    (kbLayout p s).o_yaw = s.o_yaw := by
  simp only [kbLayout, layoutToggle]; split_ifs <;> rfl

theorem kbLayout_o_pitch (p : List Int) (s : VMState) :
    (kbLayout p s).o_pitch = s.o_pitch := by
  simp only [kbLayout, layoutToggle]; split_ifs <;> rfl

theorem kbLayout_o_radius (p : List Int) (s : VMState) :
    (kbLayout p s).o_radius = s.o_radius := by
  simp only [kbLayout, layoutToggle]; split_ifs <;> rfl

theorem kbLayout_o_scalar (p : List Int) (s : VMState) :
    (kbLayout p s).o_scalar = s.o_scalar := by
  simp only [kbLayout, layoutToggle]; split_ifs <;> rfl

theorem kbLayout_ortho (p : List Int) (s : VMState) :
    (kbLayout p s).bOrthographicProjection = s.bOrthographicProjection := by
  simp only [kbLayout, layoutToggle]; split_ifs <;> rfl

theorem kbLayout_Zoom (p : List Int) (s : VMState) :
    (kbLayout p s).cam.Zoom = s.cam.Zoom := by
  simp only [kbLayout, layoutToggle]; split_ifs <;> rfl

theorem kbLayout_of_mem (p : List Int) (s : VMState) (h : s.gkey_layout ∈ p) :
    kbLayout p s = layoutToggle s := by
  simp only [kbLayout, if_pos h]

theorem kbEscape_of_not (p : List Int) (s : VMState) (h : GLFW_KEY_ESCAPE ∉ p) :
    kbEscape p s = s := by
  simp only [kbEscape, if_neg h]

theorem kbForward_of_not (p : List Int) (ds : ℚ) (s : VMState)
    (h : s.gkey_forward ∉ p) : kbForward p ds s = s := by
  simp only [kbForward, if_neg h]

theorem kbBackward_of_not (p : List Int) (ds : ℚ) (s : VMState)
    (h : s.gkey_backward ∉ p) : kbBackward p ds s = s := by
  simp only [kbBackward, if_neg h]

theorem kbLeft_of_not (p : List Int) (ds : ℚ) (s : VMState)
    (h : s.gkey_left ∉ p) : kbLeft p ds s = s := by
  simp only [kbLeft, if_neg h]

theorem kbRight_of_not (p : List Int) (ds : ℚ) (s : VMState)
    (h : s.gkey_right ∉ p) : kbRight p ds s = s := by
  simp only [kbRight, if_neg h]

theorem kbUp_of_not (p : List Int) (ds : ℚ) (s : VMState)
    (h : s.gkey_up ∉ p) : kbUp p ds s = s := by
  simp only [kbUp, if_neg h]

theorem kbDown_of_not (p : List Int) (ds : ℚ) (s : VMState)
    (h : s.gkey_down ∉ p) : kbDown p ds s = s := by
  simp only [kbDown, if_neg h]

theorem kbPerspective_of_not (p : List Int) (s : VMState) (h : GLFW_KEY_P ∉ p) :
    kbPerspective p s = s := by
  simp only [kbPerspective, if_neg h]

theorem kbLayout_of_not (p : List Int) (s : VMState) (h : s.gkey_layout ∉ p) :
    kbLayout p s = s := by
  simp only [kbLayout, if_neg h]

theorem kbForward_o_pitch_of_mem (p : List Int) (ds : ℚ) (s : VMState)
    (h : s.gkey_forward ∈ p) (ho : s.bOrthographicProjection = true) :
    (kbForward p ds s).o_pitch = wrapAngle (s.o_pitch + ds * s.o_scalar) := by
  simp only [kbForward, if_pos h, ho]
  rfl

theorem kbBackward_o_pitch_of_mem (p : List Int) (ds : ℚ) (s : VMState)
    (h : s.gkey_backward ∈ p) (ho : s.bOrthographicProjection = true) :
    (kbBackward p ds s).o_pitch = wrapAngle (s.o_pitch - ds * s.o_scalar) := by
  simp only [kbBackward, if_pos h, ho]
  rfl

theorem kbLeft_o_yaw_of_mem (p : List Int) (ds : ℚ) (s : VMState)
    (h : s.gkey_left ∈ p) (ho : s.bOrthographicProjection = true) :
    (kbLeft p ds s).o_yaw = wrapAngle (s.o_yaw - ds * s.o_scalar) := by
  simp only [kbLeft, if_pos h, ho]
  rfl

theorem kbRight_o_yaw_of_mem (p : List Int) (ds : ℚ) (s : VMState)
    (h : s.gkey_right ∈ p) (ho : s.bOrthographicProjection = true) :
    (kbRight p ds s).o_yaw = wrapAngle (s.o_yaw + ds * s.o_scalar) := by
  simp only [kbRight, if_pos h, ho]
  rfl

theorem kbForward_o_pitch_bounds (p : List Int) (ds : ℚ) (s : VMState)
    (h1 : 0 ≤ s.o_pitch) (h2 : s.o_pitch ≤ 360) :
    0 ≤ (kbForward p ds s).o_pitch ∧ (kbForward p ds s).o_pitch ≤ 360 := by
  simp only [kbForward]
  split_ifs with hm ho
  · exact ⟨wrapAngle_nonneg _, wrapAngle_le _⟩
  · exact ⟨h1, h2⟩
  · exact ⟨h1, h2⟩

theorem kbBackward_o_pitch_bounds (p : List Int) (ds : ℚ) (s : VMState)
    (h1 : 0 ≤ s.o_pitch) (h2 : s.o_pitch ≤ 360) :
    0 ≤ (kbBackward p ds s).o_pitch ∧ (kbBackward p ds s).o_pitch ≤ 360 := by
  simp only [kbBackward]
  split_ifs with hm ho
  · exact ⟨wrapAngle_nonneg _, wrapAngle_le _⟩
  · exact ⟨h1, h2⟩
  · exact ⟨h1, h2⟩

theorem kbEscape_forwardKey (p : List Int) (s : VMState) :
    (kbEscape p s).gkey_forward = s.gkey_forward :=
  congrArg KeyTable.forward (kbEscape_keyTable p s)

theorem kbEscape_backwardKey (p : List Int) (s : VMState) :
    (kbEscape p s).gkey_backward = s.gkey_backward :=
  congrArg KeyTable.backward (kbEscape_keyTable p s)

theorem kbEscape_leftKey (p : List Int) (s : VMState) :
    (kbEscape p s).gkey_left = s.gkey_left :=
  congrArg KeyTable.left (kbEscape_keyTable p s)

theorem kbEscape_rightKey (p : List Int) (s : VMState) :
    (kbEscape p s).gkey_right = s.gkey_right :=
  congrArg KeyTable.right (kbEscape_keyTable p s)

theorem kbForward_backwardKey (p : List Int) (ds : ℚ) (s : VMState) :
    (kbForward p ds s).gkey_backward = s.gkey_backward :=
  congrArg KeyTable.backward (kbForward_keyTable p ds s)

theorem kbForward_leftKey (p : List Int) (ds : ℚ) (s : VMState) :
    (kbForward p ds s).gkey_left = s.gkey_left :=
  congrArg KeyTable.left (kbForward_keyTable p ds s)

theorem kbForward_rightKey (p : List Int) (ds : ℚ) (s : VMState) :
    (kbForward p ds s).gkey_right = s.gkey_right :=
  congrArg KeyTable.right (kbForward_keyTable p ds s)

theorem kbForward_forwardKey (p : List Int) (ds : ℚ) (s : VMState) :
    (kbForward p ds s).gkey_forward = s.gkey_forward :=
  congrArg KeyTable.forward (kbForward_keyTable p ds s)

theorem kbBackward_leftKey (p : List Int) (ds : ℚ) (s : VMState) :
    (kbBackward p ds s).gkey_left = s.gkey_left :=
  congrArg KeyTable.left (kbBackward_keyTable p ds s)

theorem kbBackward_rightKey (p : List Int) (ds : ℚ) (s : VMState) :
    (kbBackward p ds s).gkey_right = s.gkey_right :=
  congrArg KeyTable.right (kbBackward_keyTable p ds s)

theorem kbLeft_rightKey (p : List Int) (ds : ℚ) (s : VMState) :
    (kbLeft p ds s).gkey_right = s.gkey_right :=
  congrArg KeyTable.right (kbLeft_keyTable p ds s)

theorem kbLeft_o_yaw_bounds (p : List Int) (ds : ℚ) (s : VMState)
    (h1 : 0 ≤ s.o_yaw) (h2 : s.o_yaw ≤ 360) :
    0 ≤ (kbLeft p ds s).o_yaw ∧ (kbLeft p ds s).o_yaw ≤ 360 := by
  simp only [kbLeft]
  split_ifs with hm ho
  · exact ⟨wrapAngle_nonneg _, wrapAngle_le _⟩
  · exact ⟨h1, h2⟩
  · exact ⟨h1, h2⟩

theorem kbRight_o_yaw_bounds (p : List Int) (ds : ℚ) (s : VMState)
    (h1 : 0 ≤ s.o_yaw) (h2 : s.o_yaw ≤ 360) :
    0 ≤ (kbRight p ds s).o_yaw ∧ (kbRight p ds s).o_yaw ≤ 360 := by
  simp only [kbRight]
  split_ifs with hm ho
  · exact ⟨wrapAngle_nonneg _, wrapAngle_le _⟩
  · exact ⟨h1, h2⟩
  · exact ⟨h1, h2⟩

theorem kbOrthographic_o_yaw_bounds (p : List Int) (s : VMState)
    (h1 : 0 ≤ s.o_yaw) (h2 : s.o_yaw ≤ 360) :
    0 ≤ (kbOrthographic p s).o_yaw ∧ (kbOrthographic p s).o_yaw ≤ 360 := by
  simp only [kbOrthographic]
  split_ifs
  · constructor <;> norm_num
  · exact ⟨h1, h2⟩

theorem kbOrthographic_o_pitch_bounds (p : List Int) (s : VMState)
    (h1 : 0 ≤ s.o_pitch) (h2 : s.o_pitch ≤ 360) :
    0 ≤ (kbOrthographic p s).o_pitch ∧ (kbOrthographic p s).o_pitch ≤ 360 := by
  simp only [kbOrthographic]
  split_ifs
  · constructor <;> norm_num
  · exact ⟨h1, h2⟩

theorem kbEscape_Zoom (p : List Int) (s : VMState) :
    (kbEscape p s).cam.Zoom = s.cam.Zoom := by
  rw [kbEscape_cam]

theorem kbOrthographic_Zoom (p : List Int) (s : VMState) :
    (kbOrthographic p s).cam.Zoom = s.cam.Zoom := by
  rw [kbOrthographic_cam]

theorem ProcessKeyboardEvents_o_radius (s : VMState) (p : List Int) :
    (ProcessKeyboardEvents s p).o_radius = s.o_radius := by
  simp only [ProcessKeyboardEvents, kbLayout_o_radius, kbOrthographic_o_radius,
    kbPerspective_o_radius, kbDown_o_radius, kbUp_o_radius, kbRight_o_radius,
    kbLeft_o_radius, kbBackward_o_radius, kbForward_o_radius, kbEscape_o_radius]

theorem ProcessKeyboardEvents_Zoom (s : VMState) (p : List Int) :
    (ProcessKeyboardEvents s p).cam.Zoom = s.cam.Zoom := by
  simp only [ProcessKeyboardEvents, kbLayout_Zoom, kbOrthographic_Zoom,
    kbPerspective_Zoom, kbDown_Zoom, kbUp_Zoom, kbRight_Zoom, kbLeft_Zoom,
    kbBackward_Zoom, kbForward_Zoom, kbEscape_Zoom]

theorem Mouse_Position_Callback_o_radius (s : VMState) (x y : ℚ) :
    (Mouse_Position_Callback s x y).o_radius = s.o_radius := by
  simp only [Mouse_Position_Callback]
  split_ifs <;> rfl

theorem Mouse_Position_Callback_Zoom (s : VMState) (x y : ℚ) :
    (Mouse_Position_Callback s x y).cam.Zoom = s.cam.Zoom := by
  simp only [Mouse_Position_Callback]
  split_ifs <;> simp [ProcessMouseMovement_Zoom]

theorem Mouse_Scroll_Wheel_Callback_o_radius (s : VMState) (x y : ℚ) :
    (Mouse_Scroll_Wheel_Callback s x y).o_radius = s.o_radius := rfl

theorem Mouse_Scroll_Wheel_Callback_cam (s : VMState) (x y : ℚ) :
    (Mouse_Scroll_Wheel_Callback s x y).cam = s.cam := rfl

theorem PrepareSceneViewStep_o_radius (s : VMState) (t : ℚ) (p : List Int) :
    (PrepareSceneViewStep s t p).o_radius = s.o_radius := by
  simp only [PrepareSceneViewStep, ProcessKeyboardEvents_o_radius]

theorem PrepareSceneViewStep_Zoom (s : VMState) (t : ℚ) (p : List Int) :
    (PrepareSceneViewStep s t p).cam.Zoom = s.cam.Zoom := by
  simp only [PrepareSceneViewStep, ProcessKeyboardEvents_Zoom]

theorem stepEvent_o_radius (s : VMState) (ev : Event) :
    (stepEvent s ev).o_radius = s.o_radius := by
  cases ev with
  | frame t pressed => exact PrepareSceneViewStep_o_radius s t pressed
  | mouseMove x y => exact Mouse_Position_Callback_o_radius s x y
  | scroll x y => exact Mouse_Scroll_Wheel_Callback_o_radius s x y

theorem stepEvent_Zoom (s : VMState) (ev : Event) :
    (stepEvent s ev).cam.Zoom = s.cam.Zoom := by
  cases ev with
  | frame t pressed => exact PrepareSceneViewStep_Zoom s t pressed
  | mouseMove x y => exact Mouse_Position_Callback_Zoom s x y
  | scroll x y => exact congrArg Camera.Zoom (Mouse_Scroll_Wheel_Callback_cam s x y)

theorem runEvents_o_radius (evs : List Event) (s : VMState) :
    (runEvents s evs).o_radius = s.o_radius := by
  induction evs generalizing s with
  | nil => rfl
  | cons ev rest ih =>
    simp only [runEvents, List.foldl_cons] at *
    rw [ih, stepEvent_o_radius]

theorem runEvents_Zoom (evs : List Event) (s : VMState) :
    (runEvents s evs).cam.Zoom = s.cam.Zoom := by
  induction evs generalizing s with
  | nil => rfl
  | cons ev rest ih =>
    simp only [runEvents, List.foldl_cons] at *
    rw [ih, stepEvent_Zoom]

theorem findMaterialLoop_of_no_match (mats : List OBJECT_MATERIAL) (tag : String)
    (m : OBJECT_MATERIAL) (h : ∀ e ∈ mats, e.tag ≠ tag) :
    findMaterialLoop mats tag m = m := by
  induction mats with
  | nil => rfl
  | cons a rest ih =>
    simp only [findMaterialLoop]
    rw [if_neg (h a (List.mem_cons_self a rest))]
    exact ih fun e he => h e (List.mem_cons_of_mem a he)

theorem findMaterialLoop_of_find (mats : List OBJECT_MATERIAL) (tag : String)
    (m e : OBJECT_MATERIAL)
    (h : mats.find? (fun x => x.tag == tag) = some e) :
    findMaterialLoop mats tag m = copyMaterialFields e m := by
  induction mats with
  | nil => simp [List.find?] at h
  | cons a rest ih =>
    by_cases ha : a.tag = tag
    · rw [List.find?_cons_of_pos rest
        (by simp [ha] : (fun x : OBJECT_MATERIAL => x.tag == tag) a = true)] at h
      have he : a = e := Option.some_inj.mp h
      subst he
      simp only [findMaterialLoop, if_pos ha]
    · rw [List.find?_cons_of_neg rest
        (by simp [ha] : ¬(fun x : OBJECT_MATERIAL => x.tag == tag) a = true)] at h
      simp only [findMaterialLoop, if_neg ha]
      exact ih h

/-! The claims. -/

/-- C1: in each `PrepareSceneView` call exactly one of two hardcoded
view/projection constructions is selected by `bOrthographicProjection`:
when the flag is set the view is rebuilt as a `lookAt` from the orbit
position toward the world origin with up `(0,1,0)` and the projection is
the fixed orthographic frustum `ortho(-20, 20, -16, 16, 0.1, 100)`
(i.e. `±WINDOW_WIDTH*0.02`, `±WINDOW_HEIGHT*0.02`); when it is clear the
view is the perspective camera's view matrix and the projection is
`perspective(radians(Zoom), WINDOW_WIDTH/WINDOW_HEIGHT, 0.1, 100)`. -/
theorem C1_view_projection_selected_by_flag (s : VMState) :
    PrepareSceneViewMatrices s =
      if s.bOrthographicProjection = true then
        (ViewMatrix.lookAt
            (o_position (s.o_yaw : ℝ) (s.o_pitch : ℝ) (s.o_radius : ℝ))
            ⟨0, 0, 0⟩ ⟨0, 1, 0⟩,
         ProjectionMatrix.ortho (-20) 20 (-16) 16 0.1 100)
      else
        (s.cam.GetViewMatrix,
         ProjectionMatrix.perspective (radiansR (s.cam.Zoom : ℝ))
           ((1000 : ℝ) / 800) 0.1 100) := by
  simp only [PrepareSceneViewMatrices, WINDOW_WIDTH, WINDOW_HEIGHT]
  split_ifs with h
  · norm_num
  · norm_num

/-- C3: the spherical-to-Cartesian conversion of
`update_o_camera_position` places the orbit camera on the sphere of radius
`o_radius` about the world origin: for all angles the Euclidean norm of the
produced position equals the (nonnegative) radius. -/
theorem C3_orbit_position_on_sphere (yaw pitch r : ℝ) (hr : 0 ≤ r) :
    (o_position yaw pitch r).norm = r := by
  simp only [o_position, Vec3R.norm]
  have key : (Real.cos (radiansR yaw) * Real.cos (radiansR pitch) * r) ^ 2 +
      (Real.sin (radiansR pitch) * r) ^ 2 +
      (Real.sin (radiansR yaw) * Real.cos (radiansR pitch) * r) ^ 2 = r ^ 2 := by
    have h1 := Real.sin_sq_add_cos_sq (radiansR yaw)
    have h2 := Real.sin_sq_add_cos_sq (radiansR pitch)
    linear_combination (Real.cos (radiansR pitch) ^ 2 * r ^ 2) * h1 + r ^ 2 * h2
  rw [key]
  exact Real.sqrt_sq hr

/-- Witness for C3 at the program's radius `10`. -/
theorem C3_orbit_position_on_sphere_witness :
    (o_position 0 0 10).norm = 10 :=
  C3_orbit_position_on_sphere 0 0 10 (by simp)

/-- C5 counterexample: no mouse event (movement or scroll wheel) ever
changes `g_pCamera->Zoom`; the claim that some mouse event does is false.
The scroll-wheel callback adjusts only `m_scalar` and `p_scalar`
(`ViewManager.cpp` lines 179-199), and the mouse-position callback
forwards to `ProcessMouseMovement`, which leaves the zoom alone. -/
theorem C5_no_mouse_event_changes_zoom :
    ¬ ∃ (s : VMState) (x y : ℚ),
        (stepEvent s (Event.mouseMove x y)).cam.Zoom ≠ s.cam.Zoom ∨
        (stepEvent s (Event.scroll x y)).cam.Zoom ≠ s.cam.Zoom := by
  rintro ⟨s, x, y, h | h⟩
  · exact h (stepEvent_Zoom s (Event.mouseMove x y))
  · exact h (stepEvent_Zoom s (Event.scroll x y))

/-- C5 amended: mouse input never modifies the perspective camera's zoom —
across every event sequence `Zoom` keeps its constructor value `80`; the
scroll wheel instead adjusts the mouse-speed scalar `m_scalar` (vertical
scroll) and the panning-speed scalar `p_scalar` (horizontal scroll), each
clamped to `[0.01, 10]`. -/
theorem C5_zoom_constant_scroll_moves_scalars :
    (∀ (s : VMState) (ev : Event), (stepEvent s ev).cam.Zoom = s.cam.Zoom) ∧
    (∀ evs : List Event, (runEvents initialState evs).cam.Zoom = 80) ∧
    (∀ (s : VMState) (x y : ℚ),
      (Mouse_Scroll_Wheel_Callback s x y).m_scalar =
        min 10 (max 0.01 (s.m_scalar + y)) ∧
      (Mouse_Scroll_Wheel_Callback s x y).p_scalar =
        min 10 (max 0.01 (s.p_scalar + x))) := by
  refine ⟨stepEvent_Zoom, fun evs => by rw [runEvents_Zoom]; rfl, fun s x y => ?_⟩
  constructor
  · simp only [Mouse_Scroll_Wheel_Callback]
    split_ifs <;> (simp only [min_def, max_def]; split_ifs <;> linarith)
  · simp only [Mouse_Scroll_Wheel_Callback]
    split_ifs <;> (simp only [min_def, max_def]; split_ifs <;> linarith)

/-- C9: the orbit radius `o_radius` is never modified: every single event
preserves it, and along every event sequence from the initial state it
keeps its initial value `10`, so orthographic keyboard input can only move
the camera on the fixed sphere, never closer to or farther from the
origin. -/
theorem C9_o_radius_never_modified :
    (∀ (s : VMState) (ev : Event), (stepEvent s ev).o_radius = s.o_radius) ∧
    (∀ evs : List Event, (runEvents initialState evs).o_radius = 10) :=
  ⟨stepEvent_o_radius, fun evs => by rw [runEvents_o_radius]; rfl⟩

/-- C10: `PrepareScene` loads exactly the five primitive meshes — plane,
box, sphere, cylinder, prism — each once, and every draw call issued by
`RenderScene` through its helper draw functions is against one of those
five mesh types. -/
theorem C10_five_meshes_cover_all_draws :
    preparedMeshes = [Mesh.plane, Mesh.box, Mesh.sphere, Mesh.cylinder, Mesh.prism] ∧
    preparedMeshes.Nodup ∧
    ∀ m ∈ renderSceneDraws, m ∈ preparedMeshes := by decide

/-- C2: in every keyboard-processing step, pressing P resets the
perspective camera to the fixed default pose
(`Position=(0,5,12)`, `Front=(0,-0.5,-2)`, `Up=(0,1,0)`) and clears
`bOrthographicProjection`; pressing O resets the orbit camera to
`o_yaw = 0`, `o_pitch = 0` and sets the flag.  The post-state pose of the
representation being entered is a constant, independent of the other
camera's state — no conversion between the representations happens. -/
theorem C2_mode_keys_reset_to_defaults (s : VMState) (pressed : List Int) :
    (GLFW_KEY_P ∈ pressed → GLFW_KEY_O ∉ pressed →
      (ProcessKeyboardEvents s pressed).bOrthographicProjection = false ∧
      (ProcessKeyboardEvents s pressed).cam.Position = ⟨0, 5, 12⟩ ∧
      (ProcessKeyboardEvents s pressed).cam.Front = ⟨0, -0.5, -2⟩ ∧
      (ProcessKeyboardEvents s pressed).cam.Up = ⟨0, 1, 0⟩) ∧
    (GLFW_KEY_O ∈ pressed →
      (ProcessKeyboardEvents s pressed).bOrthographicProjection = true ∧
      (ProcessKeyboardEvents s pressed).o_yaw = 0 ∧
      (ProcessKeyboardEvents s pressed).o_pitch = 0) := by
  simp only [ProcessKeyboardEvents]
  constructor
  · intro hP hO
    rw [kbOrthographic_of_not _ _ hO]
    refine ⟨?_, ?_, ?_, ?_⟩
    · rw [kbLayout_ortho]
      exact (kbPerspective_of_mem _ _ hP).2.2.2
    · rw [kbLayout_cam]
      exact (kbPerspective_of_mem _ _ hP).1
    · rw [kbLayout_cam]
      exact (kbPerspective_of_mem _ _ hP).2.1
    · rw [kbLayout_cam]
      exact (kbPerspective_of_mem _ _ hP).2.2.1
  · intro hO
    refine ⟨?_, ?_, ?_⟩
    · rw [kbLayout_ortho]
      exact (kbOrthographic_of_mem _ _ hO).2.2
    · rw [kbLayout_o_yaw]
      exact (kbOrthographic_of_mem _ _ hO).1
    · rw [kbLayout_o_pitch]
      exact (kbOrthographic_of_mem _ _ hO).2.1

/-- Witness for C2 at the initial state with the P key, then the O key. -/
theorem C2_mode_keys_reset_to_defaults_witness :
    ((ProcessKeyboardEvents initialState [GLFW_KEY_P]).bOrthographicProjection = false ∧
     (ProcessKeyboardEvents initialState [GLFW_KEY_P]).cam.Position = ⟨0, 5, 12⟩ ∧
     (ProcessKeyboardEvents initialState [GLFW_KEY_P]).cam.Front = ⟨0, -0.5, -2⟩ ∧
     (ProcessKeyboardEvents initialState [GLFW_KEY_P]).cam.Up = ⟨0, 1, 0⟩) ∧
    ((ProcessKeyboardEvents initialState [GLFW_KEY_O]).bOrthographicProjection = true ∧
     (ProcessKeyboardEvents initialState [GLFW_KEY_O]).o_yaw = 0 ∧
     (ProcessKeyboardEvents initialState [GLFW_KEY_O]).o_pitch = 0) :=
  ⟨(C2_mode_keys_reset_to_defaults initialState [GLFW_KEY_P]).1 (by decide) (by decide),
   (C2_mode_keys_reset_to_defaults initialState [GLFW_KEY_O]).2 (by decide)⟩

/-- C4: in orthographic mode the forward/backward keys move `o_pitch` up
and down and the left/right keys move `o_yaw` down and up, each by
`gDeltaTime * p_scalar * o_scalar` with the result wrapped at the `0/360`
boundary. -/
theorem C4_orbit_angle_key_updates (s : VMState) (pressed : List Int)
    (ho : s.bOrthographicProjection = true) (hO : GLFW_KEY_O ∉ pressed) :
    (s.gkey_forward ∈ pressed → s.gkey_backward ∉ pressed →
      (ProcessKeyboardEvents s pressed).o_pitch =
        wrapAngle (s.o_pitch + s.gDeltaTime * s.p_scalar * s.o_scalar)) ∧
    (s.gkey_backward ∈ pressed → s.gkey_forward ∉ pressed →
      (ProcessKeyboardEvents s pressed).o_pitch =
        wrapAngle (s.o_pitch - s.gDeltaTime * s.p_scalar * s.o_scalar)) ∧
    (s.gkey_left ∈ pressed → s.gkey_right ∉ pressed →
      (ProcessKeyboardEvents s pressed).o_yaw =
        wrapAngle (s.o_yaw - s.gDeltaTime * s.p_scalar * s.o_scalar)) ∧
    (s.gkey_right ∈ pressed → s.gkey_left ∉ pressed →
      (ProcessKeyboardEvents s pressed).o_yaw =
        wrapAngle (s.o_yaw + s.gDeltaTime * s.p_scalar * s.o_scalar)) := by
  simp only [ProcessKeyboardEvents]
  refine ⟨fun h1 h2 => ?_, fun h1 h2 => ?_, fun h1 h2 => ?_, fun h1 h2 => ?_⟩
  · rw [kbLayout_o_pitch, kbOrthographic_of_not _ _ hO, kbPerspective_o_pitch,
      (kbDown_angles _ _ _).2, (kbUp_angles _ _ _).2, kbRight_o_pitch, kbLeft_o_pitch,
      kbBackward_of_not _ _ _ (by rw [kbForward_backwardKey, kbEscape_backwardKey]; exact h2),
      kbForward_o_pitch_of_mem _ _ _ (by rw [kbEscape_forwardKey]; exact h1)
        (by rw [kbEscape_ortho]; exact ho),
      kbEscape_o_pitch, kbEscape_o_scalar]
  · rw [kbLayout_o_pitch, kbOrthographic_of_not _ _ hO, kbPerspective_o_pitch,
      (kbDown_angles _ _ _).2, (kbUp_angles _ _ _).2, kbRight_o_pitch, kbLeft_o_pitch,
      kbBackward_o_pitch_of_mem _ _ _
        (by rw [kbForward_backwardKey, kbEscape_backwardKey]; exact h1)
        (by rw [kbForward_ortho, kbEscape_ortho]; exact ho),
      kbForward_of_not _ _ _ (by rw [kbEscape_forwardKey]; exact h2),
      kbEscape_o_pitch, kbEscape_o_scalar]
  · rw [kbLayout_o_yaw, kbOrthographic_of_not _ _ hO, kbPerspective_o_yaw,
      (kbDown_angles _ _ _).1, (kbUp_angles _ _ _).1,
      kbRight_of_not _ _ _
        (by rw [kbLeft_rightKey, kbBackward_rightKey, kbForward_rightKey,
              kbEscape_rightKey]; exact h2),
      kbLeft_o_yaw_of_mem _ _ _
        (by rw [kbBackward_leftKey, kbForward_leftKey, kbEscape_leftKey]; exact h1)
        (by rw [kbBackward_ortho, kbForward_ortho, kbEscape_ortho]; exact ho),
      kbBackward_o_yaw, kbForward_o_yaw, kbEscape_o_yaw,
      kbBackward_o_scalar, kbForward_o_scalar, kbEscape_o_scalar]
  · rw [kbLayout_o_yaw, kbOrthographic_of_not _ _ hO, kbPerspective_o_yaw,
      (kbDown_angles _ _ _).1, (kbUp_angles _ _ _).1,
      kbRight_o_yaw_of_mem _ _ _
        (by rw [kbLeft_rightKey, kbBackward_rightKey, kbForward_rightKey,
              kbEscape_rightKey]; exact h1)
        (by rw [kbLeft_ortho, kbBackward_ortho, kbForward_ortho, kbEscape_ortho]
            exact ho),
      kbLeft_of_not _ _ _
        (by rw [kbBackward_leftKey, kbForward_leftKey, kbEscape_leftKey]; exact h2),
      kbBackward_o_yaw, kbForward_o_yaw, kbEscape_o_yaw,
      kbBackward_o_scalar, kbForward_o_scalar, kbEscape_o_scalar]

/-- The initial state with orthographic mode already active, used as a
concrete input. -/
def orthoState : VMState := { initialState with bOrthographicProjection := true }

/-- Witness for C4: in orthographic mode the forward key (W) wraps
`o_pitch` up by the scaled delta. -/
theorem C4_orbit_angle_key_updates_witness :
    (ProcessKeyboardEvents orthoState [GLFW_KEY_W]).o_pitch =
      wrapAngle (orthoState.o_pitch +
        orthoState.gDeltaTime * orthoState.p_scalar * orthoState.o_scalar) :=
  (C4_orbit_angle_key_updates orthoState [GLFW_KEY_W] (by decide) (by decide)).1
    (by decide) (by decide)

/-- C6: the keyboard-layout toggle only swaps the table of key codes and
is an involution on the two layout states: one toggle installs the other
layout's fixed table and flips `bcolemak_layout`; from either of the two
canonical layout states toggling twice restores exactly the original
table and flag; and a keyboard step in which only the layout key is held
performs exactly the toggle and nothing else. -/
theorem C6_layout_toggle_swaps_and_involutes (s : VMState) (pressed : List Int) :
    ((layoutToggle s).keyTable =
        (if s.bcolemak_layout then qwertyTable else colemakTable) ∧
      (layoutToggle s).bcolemak_layout = !s.bcolemak_layout) ∧
    ((s.bcolemak_layout = false ∧ s.keyTable = qwertyTable) ∨
        (s.bcolemak_layout = true ∧ s.keyTable = colemakTable) →
      (layoutToggle (layoutToggle s)).keyTable = s.keyTable ∧
      (layoutToggle (layoutToggle s)).bcolemak_layout = s.bcolemak_layout) ∧
    (s.gkey_layout ∈ pressed → GLFW_KEY_ESCAPE ∉ pressed →
      s.gkey_forward ∉ pressed → s.gkey_backward ∉ pressed →
      s.gkey_left ∉ pressed → s.gkey_right ∉ pressed →
      s.gkey_up ∉ pressed → s.gkey_down ∉ pressed →
      GLFW_KEY_P ∉ pressed → GLFW_KEY_O ∉ pressed →
      ProcessKeyboardEvents s pressed = layoutToggle s) := by
  refine ⟨⟨?_, ?_⟩, ?_, ?_⟩
  · simp only [layoutToggle]
    split_ifs <;> rfl
  · simp only [layoutToggle]
    split_ifs with h <;> simp [h]
  · rintro (⟨hf, ht⟩ | ⟨hf, ht⟩)
    · constructor
      · have hq : (layoutToggle (layoutToggle s)).keyTable = qwertyTable := by
          simp [layoutToggle, hf, VMState.keyTable, qwertyTable]
        rw [hq, ht]
      · simp [layoutToggle, hf]
    · constructor
      · have hc : (layoutToggle (layoutToggle s)).keyTable = colemakTable := by
          simp [layoutToggle, hf, VMState.keyTable, colemakTable]
        rw [hc, ht]
      · simp [layoutToggle, hf]
  · intro h hesc hfw hb hle hr hu hd hP hO
    simp only [ProcessKeyboardEvents]
    rw [kbEscape_of_not _ _ hesc, kbForward_of_not _ _ _ hfw,
      kbBackward_of_not _ _ _ hb, kbLeft_of_not _ _ _ hle,
      kbRight_of_not _ _ _ hr, kbUp_of_not _ _ _ hu, kbDown_of_not _ _ _ hd,
      kbPerspective_of_not _ _ hP, kbOrthographic_of_not _ _ hO,
      kbLayout_of_mem _ _ h]

/-- Witness for C6: the double toggle on the initial (QWERTY) state and a
keyboard step holding only the layout key C. -/
theorem C6_layout_toggle_swaps_and_involutes_witness :
    ((layoutToggle (layoutToggle initialState)).keyTable = initialState.keyTable ∧
      (layoutToggle (layoutToggle initialState)).bcolemak_layout =
        initialState.bcolemak_layout) ∧
    ProcessKeyboardEvents initialState [GLFW_KEY_C] = layoutToggle initialState :=
  ⟨(C6_layout_toggle_swaps_and_involutes initialState [GLFW_KEY_C]).2.1
      (Or.inl (by decide)),
   (C6_layout_toggle_swaps_and_involutes initialState [GLFW_KEY_C]).2.2
      (by decide) (by decide) (by decide) (by decide) (by decide) (by decide)
      (by decide) (by decide) (by decide) (by decide)⟩

/-- C7: `FindMaterial` returns `false` exactly when the materials list is
empty; on a non-empty list it returns `true` even when no tag matches, and
in that miss case the output parameter is left entirely unmodified; the
output fields are copied from the first matching entry when one exists. -/
theorem C7_find_material_miss_behavior (mats : List OBJECT_MATERIAL)
    (tag : String) (m : OBJECT_MATERIAL) :
    ((FindMaterial mats tag m).1 = false ↔ mats = []) ∧
    ((∀ e ∈ mats, e.tag ≠ tag) → (FindMaterial mats tag m).2 = m) ∧
    (∀ e, mats.find? (fun x => x.tag == tag) = some e →
      (FindMaterial mats tag m).2 = copyMaterialFields e m) := by
  refine ⟨?_, ?_, ?_⟩
  · simp only [FindMaterial]
    split_ifs with h
    · simp [List.length_eq_zero.mp h]
    · constructor
      · intro hh
        exact absurd hh (by simp)
      · intro hh
        exact absurd (by simp [hh] : mats.length = 0) h
  · intro hno
    simp only [FindMaterial]
    split_ifs with h
    · rfl
    · exact findMaterialLoop_of_no_match mats tag m hno
  · intro e he
    simp only [FindMaterial]
    split_ifs with h
    · rw [List.length_eq_zero.mp h] at he
      simp [List.find?] at he
    · exact findMaterialLoop_of_find mats tag m e he

/-- The wood material of `DefineObjectMaterials` (lines 440-446). -/
def wood_mat : OBJECT_MATERIAL where
  ambientColor := ⟨0.1, 0.1, 0.0⟩
  ambientStrength := 0.3
  diffuseColor := ⟨0.7, 0.7, 0.6⟩
  specularColor := ⟨0.5, 0.5, 0.4⟩
  shininess := 32
  tag := "wood"

/-- The glass material of `DefineObjectMaterials` (lines 451-457). -/
def glass_mat : OBJECT_MATERIAL where
  ambientColor := ⟨0.1, 0.1, 0.1⟩
  ambientStrength := 0.3
  diffuseColor := ⟨0.2, 0.2, 0.2⟩
  specularColor := ⟨0.8, 0.8, 0.8⟩
  shininess := 64
  tag := "glass"

/-- Witness for C7 on the scene's own materials: empty list, a miss on a
non-empty list, and a hit on the second entry. -/
theorem C7_find_material_miss_behavior_witness :
    ((FindMaterial [] "wood" glass_mat).1 = false ↔
      ([] : List OBJECT_MATERIAL) = []) ∧
    (FindMaterial [wood_mat] "metal" glass_mat).2 = glass_mat ∧
    (FindMaterial [wood_mat, glass_mat] "glass" wood_mat).2 =
      copyMaterialFields glass_mat wood_mat :=
  ⟨(C7_find_material_miss_behavior [] "wood" glass_mat).1,
   (C7_find_material_miss_behavior [wood_mat] "metal" glass_mat).2.1 (by decide),
   (C7_find_material_miss_behavior [wood_mat, glass_mat] "glass" wood_mat).2.2
      glass_mat rfl⟩

/-- C8: after every keyboard-processing step the orbit angles `o_yaw` and
`o_pitch` lie in `[0, 360]`, given the interval holds on entry (as it does
for the initial values `0`): every angle update wraps values above `360`
to `0` and values below `0` to `359.9`, and the O-key reset writes `0`. -/
theorem C8_orbit_angles_bounded (s : VMState) (pressed : List Int)
    (hy1 : 0 ≤ s.o_yaw) (hy2 : s.o_yaw ≤ 360)
    (hp1 : 0 ≤ s.o_pitch) (hp2 : s.o_pitch ≤ 360) :
    (0 ≤ (ProcessKeyboardEvents s pressed).o_yaw ∧
      (ProcessKeyboardEvents s pressed).o_yaw ≤ 360) ∧
    (0 ≤ (ProcessKeyboardEvents s pressed).o_pitch ∧
      (ProcessKeyboardEvents s pressed).o_pitch ≤ 360) := by
  simp only [ProcessKeyboardEvents]
  generalize s.gDeltaTime * s.p_scalar = ds
  have h0y : 0 ≤ (kbEscape pressed s).o_yaw ∧ (kbEscape pressed s).o_yaw ≤ 360 := by
    rw [kbEscape_o_yaw]
    exact ⟨hy1, hy2⟩
  have h0p : 0 ≤ (kbEscape pressed s).o_pitch ∧ (kbEscape pressed s).o_pitch ≤ 360 := by
    rw [kbEscape_o_pitch]
    exact ⟨hp1, hp2⟩
  set s0 := kbEscape pressed s
  have h1y : 0 ≤ (kbForward pressed ds s0).o_yaw ∧
      (kbForward pressed ds s0).o_yaw ≤ 360 := by
    rw [kbForward_o_yaw]
    exact h0y
  have h1p := kbForward_o_pitch_bounds pressed ds s0 h0p.1 h0p.2
  set s1 := kbForward pressed ds s0
  have h2y : 0 ≤ (kbBackward pressed ds s1).o_yaw ∧
      (kbBackward pressed ds s1).o_yaw ≤ 360 := by
    rw [kbBackward_o_yaw]
    exact h1y
  have h2p := kbBackward_o_pitch_bounds pressed ds s1 h1p.1 h1p.2
  set s2 := kbBackward pressed ds s1
  have h3y := kbLeft_o_yaw_bounds pressed ds s2 h2y.1 h2y.2
  have h3p : 0 ≤ (kbLeft pressed ds s2).o_pitch ∧
      (kbLeft pressed ds s2).o_pitch ≤ 360 := by
    rw [kbLeft_o_pitch]
    exact h2p
  set s3 := kbLeft pressed ds s2
  have h4y := kbRight_o_yaw_bounds pressed ds s3 h3y.1 h3y.2
  have h4p : 0 ≤ (kbRight pressed ds s3).o_pitch ∧
      (kbRight pressed ds s3).o_pitch ≤ 360 := by
    rw [kbRight_o_pitch]
    exact h3p
  set s4 := kbRight pressed ds s3
  have h5y : 0 ≤ (kbUp pressed ds s4).o_yaw ∧ (kbUp pressed ds s4).o_yaw ≤ 360 := by
    rw [(kbUp_angles pressed ds s4).1]
    exact h4y
  have h5p : 0 ≤ (kbUp pressed ds s4).o_pitch ∧
      (kbUp pressed ds s4).o_pitch ≤ 360 := by
    rw [(kbUp_angles pressed ds s4).2]
    exact h4p
  set s5 := kbUp pressed ds s4
  have h6y : 0 ≤ (kbDown pressed ds s5).o_yaw ∧
      (kbDown pressed ds s5).o_yaw ≤ 360 := by
    rw [(kbDown_angles pressed ds s5).1]
    exact h5y
  have h6p : 0 ≤ (kbDown pressed ds s5).o_pitch ∧
      (kbDown pressed ds s5).o_pitch ≤ 360 := by
    rw [(kbDown_angles pressed ds s5).2]
    exact h5p
  set s6 := kbDown pressed ds s5
  have h7y : 0 ≤ (kbPerspective pressed s6).o_yaw ∧
      (kbPerspective pressed s6).o_yaw ≤ 360 := by
    rw [kbPerspective_o_yaw]
    exact h6y
  have h7p : 0 ≤ (kbPerspective pressed s6).o_pitch ∧
      (kbPerspective pressed s6).o_pitch ≤ 360 := by
    rw [kbPerspective_o_pitch]
    exact h6p
  set s7 := kbPerspective pressed s6
  have h8y := kbOrthographic_o_yaw_bounds pressed s7 h7y.1 h7y.2
  have h8p := kbOrthographic_o_pitch_bounds pressed s7 h7p.1 h7p.2
  set s8 := kbOrthographic pressed s7
  constructor
  · rw [kbLayout_o_yaw]
    exact h8y
  · rw [kbLayout_o_pitch]
    exact h8p

/-- Witness for C8 at the initial state (angles `0`) with the forward key
held. -/
theorem C8_orbit_angles_bounded_witness :
    (0 ≤ (ProcessKeyboardEvents initialState [GLFW_KEY_W]).o_yaw ∧
      (ProcessKeyboardEvents initialState [GLFW_KEY_W]).o_yaw ≤ 360) ∧
    (0 ≤ (ProcessKeyboardEvents initialState [GLFW_KEY_W]).o_pitch ∧
      (ProcessKeyboardEvents initialState [GLFW_KEY_W]).o_pitch ≤ 360) :=
  C8_orbit_angles_bounded initialState [GLFW_KEY_W]
    (by decide) (by decide) (by decide) (by decide)
